import Mathlib

/-!
Verification of the `NoiseTransport` combinator from `src/noise_transport.rs`.

The transport wraps a `Framed` combinator (codec over secure channel) and
delegates every `Sink` and `Stream` operation to it.  The wrapper itself is
in `src/noise_transport.rs`; the `AsymmetricMessageCodec` and `NoiseSocket`
collaborators are modules of this repository that are not part of the given
sources, so they are modelled here from the specification of their interface
contracts (spec sections 4, 6 and 7).
-/

set_option maxRecDepth 2048

namespace Dissonance

/-- Poll result of a non-blocking operation: either an immediate value or
`pending` (the caller is suspended and will be woken later). -/
inductive Poll (α : Type) where
  | ready : α → Poll α
  | pending : Poll α
deriving DecidableEq, Repr

/-- Serialization interface standing for the serde `Serialize` and
`DeserializeOwned` bounds on the message type parameters. -/
class Serde (α : Type) where
  ser : α → List Nat
  deser : List Nat → Option α

export Serde (ser deser)

/-- Errors of the sink direction: the codec encoder error type, the union of
serialization failures and secure-channel I/O failures (spec section 4.1). -/
inductive EncoderError where
  | serializationFault : EncoderError
  | ioFault : EncoderError
deriving DecidableEq, Repr

/-- Errors of the stream direction: channel integrity faults and codec frame
faults (spec section 7). -/
inductive DecoderError where
  | integrityFault : DecoderError
  | frameFault : DecoderError
  | ioFault : DecoderError
deriving DecidableEq, Repr

/-- Modelled from the spec: the `AsymmetricMessageCodec` of module
`asymmetric_codec` (not among the given sources).  It converts a typed value
to and from a self-delimiting byte frame, carries coder-level configuration
(maximum message size), and is asymmetric: the encoder side works on `U`,
the decoder side on `V`. -/
structure AsymmetricMessageCodec (U V : Type) where
  maxMessageSize : Nat
deriving DecidableEq, Repr

/-- Modelled from the spec: `AsymmetricMessageCodec::new`, the fresh codec
constructed by `NoiseTransport::new`.  It cannot fail. -/
def AsymmetricMessageCodec.new (U V : Type) : AsymmetricMessageCodec U V :=
  { maxMessageSize := 8 * 1024 * 1024 }

/-- Modelled from the spec: one self-delimiting frame for a payload, a length
marker followed by the payload bytes. -/
def frameBytes (payload : List Nat) : List Nat :=
  payload.length :: payload

/-- Modelled from the spec: the codec encoder.  Serializes exactly one
message into a self-delimiting frame; fails with a serialization fault when
the message exceeds the configured maximum size. -/
def AsymmetricMessageCodec.encode {U V : Type} [Serde U]
    (c : AsymmetricMessageCodec U V) (u : U) :
    Except EncoderError (List Nat) :=
  if (ser u).length ≤ c.maxMessageSize then
    Except.ok (frameBytes (ser u))
  else
    Except.error EncoderError.serializationFault

/-- Modelled from the spec: one decode attempt of the codec.  It reports
`none` when the buffer does not yet hold a complete frame and otherwise one
decoded item (or a frame fault) together with the remaining buffer. -/
def AsymmetricMessageCodec.decode {U V : Type} [Serde V]
    (_c : AsymmetricMessageCodec U V) (buf : List Nat) :
    Option (Except DecoderError (V × List Nat)) :=
  match buf with
  | [] => none
  | n :: rest =>
    if n ≤ rest.length then
      match deser (α := V) (rest.take n) with
      | some v => some (Except.ok (v, rest.drop n))
      | none => some (Except.error DecoderError.frameFault)
    else
      none

/-- One chunk of read-side activity of the secure channel: decrypted bytes,
no data yet, a clean end of stream, or an integrity fault. -/
inductive ReadChunk where
  | bytes : List Nat → ReadChunk
  | notYet : ReadChunk
  | eof : ReadChunk
  | fault : ReadChunk
deriving DecidableEq, Repr

/-- Modelled from the spec: the `NoiseSocket` of module `noise_session` (not
among the given sources), an already-handshaked, reliable, ordered byte
channel over an inner transport of type `T`.  `sent` records the bytes the
channel has accepted for transmission in order; `incoming` is the sequence
of read-side events it will deliver; `writeReady` says whether it can flush
buffered bytes now; `writeFault` models a broken underlying stream. -/
structure NoiseSocket (T : Type) where
  inner : T
  sent : List Nat
  incoming : List ReadChunk
  writeReady : Bool
  writeFault : Bool
  shutdown : Bool
deriving DecidableEq, Repr

/-- Modelled from the spec: the state of the wrapped `Framed` combinator,
the codec bound to the secure channel, with its write-side byte buffer, its
read-side reassembly buffer, and the terminal flags of the inbound
direction. -/
structure Framed (T U V : Type) where
  socket : NoiseSocket T
  codec : AsymmetricMessageCodec U V
  writeBuf : List Nat
  readBuf : List Nat
  ended : Bool
  inFault : Option DecoderError
deriving DecidableEq, Repr

/-- Modelled from the spec: construction of the combinator from a channel
and a codec, with empty buffers and a live inbound direction. -/
def Framed.new {T U V : Type} (socket : NoiseSocket T)
    (codec : AsymmetricMessageCodec U V) : Framed T U V :=
  { socket := socket, codec := codec, writeBuf := [], readBuf := [],
    ended := false, inFault := none }

/-- Write-buffer size beyond which the ready-check applies backpressure. -/
def backpressureBoundary : Nat := 8192

/-- Modelled from the spec: flushing drives buffered-but-unsent bytes out
through the channel.  It reports the fault of a broken channel, suspends
while the channel cannot write, and otherwise hands the whole buffer to the
channel in order. -/
def Framed.poll_flush {T U V : Type} (f : Framed T U V) :
    Poll (Except EncoderError Unit) × Framed T U V :=
  if f.writeBuf = [] then
    (Poll.ready (Except.ok ()), f)
  else if f.socket.writeFault then
    (Poll.ready (Except.error EncoderError.ioFault), f)
  else if f.socket.writeReady then
    (Poll.ready (Except.ok ()),
      { f with socket := { f.socket with sent := f.socket.sent ++ f.writeBuf },
               writeBuf := [] })
  else
    (Poll.pending, f)

/-- Modelled from the spec: the ready-check.  It reports ready while prior
buffered writes are below the backpressure boundary and otherwise behaves as
a flush, suspending until enough buffered bytes have left. -/
def Framed.poll_ready {T U V : Type} (f : Framed T U V) :
    Poll (Except EncoderError Unit) × Framed T U V :=
  if f.writeBuf.length < backpressureBoundary then
    (Poll.ready (Except.ok ()), f)
  else
    f.poll_flush

/-- Modelled from the spec: enqueueing one outbound message.  The message is
handed to the codec for serialization into the write buffer; a serialization
fault is reported synchronously and leaves the state unchanged.  The message
value itself is consumed either way. -/
def Framed.start_send {T U V : Type} [Serde U] (f : Framed T U V) (u : U) :
    Except EncoderError Unit × Framed T U V :=
  match f.codec.encode u with
  | Except.ok bytes => (Except.ok (), { f with writeBuf := f.writeBuf ++ bytes })
  | Except.error e => (Except.error e, f)

/-- Modelled from the spec: closing flushes remaining bytes and then issues
the channel shutdown signal. -/
def Framed.poll_close {T U V : Type} (f : Framed T U V) :
    Poll (Except EncoderError Unit) × Framed T U V :=
  match f.poll_flush with
  | (Poll.ready (Except.ok _), f1) =>
    (Poll.ready (Except.ok ()),
      { f1 with socket := { f1.socket with shutdown := true } })
  | (Poll.ready (Except.error e), f1) => (Poll.ready (Except.error e), f1)
  | (Poll.pending, f1) => (Poll.pending, f1)

/-- Modelled from the spec: the body of the read loop of the combinator,
written with explicit fuel (recursion happens only when a byte chunk is
consumed, so any fuel above the number of queued chunks is enough).  It
first tries to decode a complete frame from the reassembly buffer; while
the buffer is incomplete it pulls the next read-side event from the
channel, appending delivered bytes, suspending on "no data yet", ending
cleanly on end of stream with an empty buffer (a truncated frame at end of
stream is a frame fault), and surfacing integrity faults distinctly. -/
def pollNextLoopAux {U V : Type} [Serde V] (c : AsymmetricMessageCodec U V) :
    Nat → List Nat → List ReadChunk →
    Poll (Option (Except DecoderError V)) × List Nat × List ReadChunk
  | 0, buf, inc => (Poll.pending, buf, inc)
  | Nat.succ fuel, buf, inc =>
    match c.decode buf with
    | some (Except.ok (v, rest)) => (Poll.ready (some (Except.ok v)), rest, inc)
    | some (Except.error e) => (Poll.ready (some (Except.error e)), buf, inc)
    | none =>
      match inc with
      | [] => (Poll.pending, buf, [])
      | ReadChunk.bytes b :: rest => pollNextLoopAux c fuel (buf ++ b) rest
      | ReadChunk.notYet :: rest => (Poll.pending, buf, rest)
      | ReadChunk.eof :: rest =>
        if buf = [] then (Poll.ready none, buf, rest)
        else (Poll.ready (some (Except.error DecoderError.frameFault)), buf, rest)
      | ReadChunk.fault :: rest =>
        (Poll.ready (some (Except.error DecoderError.integrityFault)), buf, rest)

/-- Modelled from the spec: the read loop of the combinator, the fuel of the
auxiliary bounded by the number of queued read events plus one (each
recursive step consumes one byte chunk, so this fuel is never
exhausted). -/
def pollNextLoop {U V : Type} [Serde V] (c : AsymmetricMessageCodec U V)
    (buf : List Nat) (inc : List ReadChunk) :
    Poll (Option (Except DecoderError V)) × List Nat × List ReadChunk :=
  pollNextLoopAux c (inc.length + 1) buf inc

/-- Modelled from the spec: one poll of the inbound direction of the
combinator.  A terminal state (clean end or fault) is remembered and every
later poll reports the identical terminal outcome; otherwise the read loop
runs and a newly reached terminal outcome is recorded. -/
def Framed.poll_next {T U V : Type} [Serde V] (f : Framed T U V) :
    Poll (Option (Except DecoderError V)) × Framed T U V :=
  match f.inFault with
  | some e => (Poll.ready (some (Except.error e)), f)
  | none =>
    if f.ended then (Poll.ready none, f)
    else
      match pollNextLoop f.codec f.readBuf f.socket.incoming with
      | (res, buf1, inc1) =>
        let f1 : Framed T U V :=
          { f with readBuf := buf1,
                   socket := { f.socket with incoming := inc1 } }
        match res with
        | Poll.ready none => (Poll.ready none, { f1 with ended := true })
        | Poll.ready (some (Except.error e)) =>
          (Poll.ready (some (Except.error e)), { f1 with inFault := some e })
        | r => (r, f1)

/-- The transport of `src/noise_transport.rs`: a unified stream and sink
interface over a `NoiseSocket`, wrapping exactly one
`Framed (NoiseSocket T) (AsymmetricMessageCodec U V)` combinator (the lone
tuple field of the Rust struct). -/
structure NoiseTransport (T U V : Type) where
  inner : Framed T U V
deriving DecidableEq, Repr

/-- Rust `NoiseTransport::new` (source lines 28-30): wraps a fresh `Framed` built
from the given socket and a freshly initialized codec.  It is total. -/
def NoiseTransport.new {T U V : Type} (socket : NoiseSocket T) :
    NoiseTransport T U V :=
  ⟨Framed.new socket (AsymmetricMessageCodec.new U V)⟩

/-- Rust `NoiseTransport::codec` (source lines 33-35): immutable borrow of the
underlying codec. -/
def NoiseTransport.codec {T U V : Type} (t : NoiseTransport T U V) :
    AsymmetricMessageCodec U V :=
  t.inner.codec

/-- Rust `NoiseTransport::codec_mut` (source lines 38-40), read half of the
mutable borrow of the underlying codec. -/
def NoiseTransport.codec_mut {T U V : Type} (t : NoiseTransport T U V) :
    AsymmetricMessageCodec U V :=
  t.inner.codec

/-- Rust `NoiseTransport::codec_mut`, write half of the mutable borrow: storing
through the borrow updates the codec the transport itself uses. -/
def NoiseTransport.codec_mut_write {T U V : Type} (t : NoiseTransport T U V)
    (c : AsymmetricMessageCodec U V) : NoiseTransport T U V :=
  ⟨{ t.inner with codec := c }⟩

/-- Rust `NoiseTransport::codec_pin_mut` (source lines 43-46), read half of the
pinned mutable borrow of the underlying codec. -/
def NoiseTransport.codec_pin_mut {T U V : Type} (t : NoiseTransport T U V) :
    AsymmetricMessageCodec U V :=
  t.inner.codec

/-- Rust `NoiseTransport::codec_pin_mut`, write half of the pinned mutable
borrow. -/
def NoiseTransport.codec_pin_mut_write {T U V : Type}
    (t : NoiseTransport T U V) (c : AsymmetricMessageCodec U V) :
    NoiseTransport T U V :=
  ⟨{ t.inner with codec := c }⟩

/-- Rust `NoiseTransport::get_ref` (source lines 49-51): immutable borrow of the
underlying socket. -/
def NoiseTransport.get_ref {T U V : Type} (t : NoiseTransport T U V) :
    NoiseSocket T :=
  t.inner.socket

/-- Rust `NoiseTransport::get_mut` (source lines 54-56), read half of the mutable
borrow of the underlying socket. -/
def NoiseTransport.get_mut {T U V : Type} (t : NoiseTransport T U V) :
    NoiseSocket T :=
  t.inner.socket

/-- Rust `NoiseTransport::get_mut`, write half of the mutable borrow. -/
def NoiseTransport.get_mut_write {T U V : Type} (t : NoiseTransport T U V)
    (s : NoiseSocket T) : NoiseTransport T U V :=
  ⟨{ t.inner with socket := s }⟩

/-- Rust `NoiseTransport::get_pin_mut` (source lines 59-62), read half of the
pinned mutable borrow of the underlying socket. -/
def NoiseTransport.get_pin_mut {T U V : Type} (t : NoiseTransport T U V) :
    NoiseSocket T :=
  t.inner.socket

/-- Rust `NoiseTransport::get_pin_mut`, write half of the pinned mutable
borrow. -/
def NoiseTransport.get_pin_mut_write {T U V : Type} (t : NoiseTransport T U V)
    (s : NoiseSocket T) : NoiseTransport T U V :=
  ⟨{ t.inner with socket := s }⟩

/-- Rust `Sink::poll_ready` of the transport (source lines 73-79): projects the
pinned field and delegates to the wrapped combinator. -/
def NoiseTransport.poll_ready {T U V : Type} (t : NoiseTransport T U V) :
    Poll (Except EncoderError Unit) × NoiseTransport T U V :=
  ((t.inner.poll_ready).1, ⟨(t.inner.poll_ready).2⟩)

/-- Rust `Sink::poll_flush` of the transport (source lines 81-87): delegates to
the wrapped combinator. -/
def NoiseTransport.poll_flush {T U V : Type} (t : NoiseTransport T U V) :
    Poll (Except EncoderError Unit) × NoiseTransport T U V :=
  ((t.inner.poll_flush).1, ⟨(t.inner.poll_flush).2⟩)

/-- Rust `Sink::poll_close` of the transport (source lines 89-95): delegates to
the wrapped combinator. -/
def NoiseTransport.poll_close {T U V : Type} (t : NoiseTransport T U V) :
    Poll (Except EncoderError Unit) × NoiseTransport T U V :=
  ((t.inner.poll_close).1, ⟨(t.inner.poll_close).2⟩)

/-- Rust `Sink::start_send` of the transport (source lines 97-103): delegates to
the wrapped combinator, consuming the message. -/
def NoiseTransport.start_send {T U V : Type} [Serde U]
    (t : NoiseTransport T U V) (u : U) :
    Except EncoderError Unit × NoiseTransport T U V :=
  ((t.inner.start_send u).1, ⟨(t.inner.start_send u).2⟩)

/-- Rust `Stream::poll_next` of the transport (source lines 117-123): delegates
to the wrapped combinator. -/
def NoiseTransport.poll_next {T U V : Type} [Serde V]
    (t : NoiseTransport T U V) :
    Poll (Option (Except DecoderError V)) × NoiseTransport T U V :=
  ((t.inner.poll_next).1, ⟨(t.inner.poll_next).2⟩)

/-- Driver for the ordering scenario of the spec: enqueue each message only
after a successful ready-check, giving up (`none`) if the transport is not
ready or rejects a message. -/
def sendAll {T U V : Type} [Serde U] :
    NoiseTransport T U V → List U → Option (NoiseTransport T U V)
  | t, [] => some t
  | t, u :: us =>
    match t.poll_ready with
    | (Poll.ready (Except.ok _), t1) =>
      match t1.start_send u with
      | (Except.ok _, t2) => sendAll t2 us
      | (Except.error _, _) => none
    | _ => none

/-- Driver for the inbound scenario: poll the stream a given number of times
and record the outcomes in order. -/
def pollMany {T U V : Type} [Serde V] :
    Nat → NoiseTransport T U V →
    List (Poll (Option (Except DecoderError V))) × NoiseTransport T U V
  | 0, t => ([], t)
  | Nat.succ n, t =>
    let p := t.poll_next
    let r := pollMany n p.2
    (p.1 :: r.1, r.2)

/-- Serialization of natural numbers for concrete scenarios. -/
instance : Serde Nat where
  ser n := [n]
  deser l := match l with
    | [n] => some n
    | _ => none

/-- Outbound message type of the asymmetry scenario in the spec. -/
structure Ping where
  seq : Nat
deriving DecidableEq, Repr

/-- Inbound message type of the asymmetry scenario in the spec. -/
structure Pong where
  seq : Nat
  payload : List Nat
deriving DecidableEq, Repr

instance : Serde Ping where
  ser p := [p.seq]
  deser l := match l with
    | [n] => some ⟨n⟩
    | _ => none

instance : Serde Pong where
  ser p := p.seq :: p.payload
  deser l := match l with
    | [] => none
    | n :: rest => some ⟨n, rest⟩

/-- A quiescent secure channel over a unit inner transport, ready to write,
with no inbound activity. -/
def baseSocket : NoiseSocket Unit :=
  { inner := (), sent := [], incoming := [], writeReady := true,
    writeFault := false, shutdown := false }

/-- Transport whose channel will deliver a clean end of stream. -/
def tEofNat : NoiseTransport Unit Nat Nat :=
  ⟨{ socket := { baseSocket with incoming := [ReadChunk.eof] },
     codec := AsymmetricMessageCodec.new Nat Nat, writeBuf := [],
     readBuf := [], ended := false, inFault := none }⟩

/-- Transport whose channel will deliver an integrity fault. -/
def tFaultNat : NoiseTransport Unit Nat Nat :=
  ⟨{ socket := { baseSocket with incoming := [ReadChunk.fault] },
     codec := AsymmetricMessageCodec.new Nat Nat, writeBuf := [],
     readBuf := [], ended := false, inFault := none }⟩

/-- Transport whose write buffer sits exactly at the backpressure boundary
(4096 enqueued frames of two bytes each) over a channel that cannot flush,
so its ready-check reports pending. -/
def tNotReady : NoiseTransport Unit Nat Nat :=
  ⟨{ socket := { baseSocket with writeReady := false },
     codec := AsymmetricMessageCodec.new Nat Nat,
     writeBuf := ((List.replicate 4096 (0 : Nat)).map
       fun m => frameBytes (ser m)).flatten,
     readBuf := [], ended := false, inFault := none }⟩

/-- Transport over a broken channel (write fault), with a full write buffer
and a codec whose maximum message size is zero, exercising every sink error
path at once. -/
def tErr : NoiseTransport Unit Nat Nat :=
  ⟨{ socket := { baseSocket with writeFault := true },
     codec := { maxMessageSize := 0 },
     writeBuf := List.replicate 8192 1, readBuf := [], ended := false,
     inFault := none }⟩

/-- Fresh transport used by the outbound ordering scenario. -/
def tSendPing : NoiseTransport Unit Ping Pong :=
  NoiseTransport.new baseSocket

/-- Transport whose channel delivers the frames of two pongs in one chunk,
used by the inbound ordering scenario. -/
def sRecvPong : NoiseTransport Unit Ping Pong :=
  ⟨{ socket := { baseSocket with incoming :=
       [ReadChunk.bytes (([(⟨7, [9, 9]⟩ : Pong), ⟨8, []⟩].map
         fun v => frameBytes (ser v)).flatten)] },
     codec := AsymmetricMessageCodec.new Ping Pong, writeBuf := [],
     readBuf := [], ended := false, inFault := none }⟩

/-- Transport holding one complete pong frame in its reassembly buffer, used
by the asymmetry scenario. -/
def tAsym : NoiseTransport Unit Ping Pong :=
  ⟨{ socket := baseSocket, codec := AsymmetricMessageCodec.new Ping Pong,
     writeBuf := [], readBuf := frameBytes (ser (⟨7, [1, 2]⟩ : Pong)),
     ended := false, inFault := none }⟩

theorem NoiseTransport.poll_ready_def {T U V : Type}
    (t : NoiseTransport T U V) :
    t.poll_ready = ((t.inner.poll_ready).1, ⟨(t.inner.poll_ready).2⟩) := rfl

theorem NoiseTransport.poll_flush_def {T U V : Type}
    (t : NoiseTransport T U V) :
    t.poll_flush = ((t.inner.poll_flush).1, ⟨(t.inner.poll_flush).2⟩) := rfl

theorem NoiseTransport.poll_close_def {T U V : Type}
    (t : NoiseTransport T U V) :
    t.poll_close = ((t.inner.poll_close).1, ⟨(t.inner.poll_close).2⟩) := rfl

theorem NoiseTransport.start_send_def {T U V : Type} [Serde U]
    (t : NoiseTransport T U V) (u : U) :
    t.start_send u = ((t.inner.start_send u).1, ⟨(t.inner.start_send u).2⟩) :=
  rfl

theorem NoiseTransport.poll_next_def {T U V : Type} [Serde V]
    (t : NoiseTransport T U V) :
    t.poll_next = ((t.inner.poll_next).1, ⟨(t.inner.poll_next).2⟩) := rfl

theorem AsymmetricMessageCodec.decode_frame {U V : Type} [Serde V]
    (c : AsymmetricMessageCodec U V) (v : V) (q : List Nat)
    (hrt : deser (ser v) = some v) :
    c.decode (frameBytes (ser v) ++ q) = some (Except.ok (v, q)) := by
  simp only [AsymmetricMessageCodec.decode, frameBytes, List.cons_append]
  rw [if_pos (by simp)]
  rw [List.take_left, List.drop_left, hrt]

theorem Framed.poll_next_ended {T U V : Type} [Serde V] (f : Framed T U V)
    (hE : f.ended = true) (hF : f.inFault = none) :
    f.poll_next = (Poll.ready none, f) := by
  simp [Framed.poll_next, hE, hF]

theorem Framed.poll_next_faulted {T U V : Type} [Serde V] (f : Framed T U V)
    (e : DecoderError) (hF : f.inFault = some e) :
    f.poll_next = (Poll.ready (some (Except.error e)), f) := by
  simp [Framed.poll_next, hF]

theorem Framed.poll_next_none_state {T U V : Type} [Serde V]
    (f : Framed T U V) (h : (f.poll_next).1 = Poll.ready none) :
    (f.poll_next).2.ended = true ∧ (f.poll_next).2.inFault = none := by
  cases hF : f.inFault with
  | some e => simp [Framed.poll_next, hF] at h
  | none =>
    by_cases hE : f.ended
    · simp [Framed.poll_next, hF, hE]
    · rcases hL : pollNextLoop f.codec f.readBuf f.socket.incoming with
        ⟨res, buf1, inc1⟩
      cases res with
      | pending => simp [Framed.poll_next, hF, hE, hL] at h
      | ready o =>
        cases o with
        | none => simp [Framed.poll_next, hF, hE, hL]
        | some r =>
          cases r with
          | ok v => simp [Framed.poll_next, hF, hE, hL] at h
          | error e => simp [Framed.poll_next, hF, hE, hL] at h

theorem Framed.poll_next_error_state {T U V : Type} [Serde V]
    (f : Framed T U V) (e : DecoderError)
    (h : (f.poll_next).1 = Poll.ready (some (Except.error e))) :
    (f.poll_next).2.inFault = some e := by
  cases hF : f.inFault with
  | some e0 =>
    have he : e0 = e := by simpa [Framed.poll_next, hF] using h
    simp [Framed.poll_next, hF, he]
  | none =>
    by_cases hE : f.ended
    · simp [Framed.poll_next, hF, hE] at h
    · rcases hL : pollNextLoop f.codec f.readBuf f.socket.incoming with
        ⟨res, buf1, inc1⟩
      cases res with
      | pending => simp [Framed.poll_next, hF, hE, hL] at h
      | ready o =>
        cases o with
        | none => simp [Framed.poll_next, hF, hE, hL] at h
        | some r =>
          cases r with
          | ok v => simp [Framed.poll_next, hF, hE, hL] at h
          | error e0 =>
            have he : e0 = e := by
              simpa [Framed.poll_next, hF, hE, hL] using h
            simp [Framed.poll_next, hF, hE, hL, he]

/-- Claim C2: once poll_next reports "stream ended" (None) or a fatal fault,
every subsequent poll_next on the same transport reports the identical
terminal outcome; the inbound stream never resumes after a terminal
state. -/
theorem poll_next_terminal {T U V : Type} [Serde V]
    (t : NoiseTransport T U V) :
    ((t.poll_next).1 = Poll.ready none →
      ((t.poll_next).2).poll_next = (Poll.ready none, (t.poll_next).2)) ∧
    (∀ e : DecoderError,
      (t.poll_next).1 = Poll.ready (some (Except.error e)) →
      ((t.poll_next).2).poll_next
        = (Poll.ready (some (Except.error e)), (t.poll_next).2)) := by
  constructor
  · intro h
    have h1 : (t.inner.poll_next).1 = Poll.ready none := h
    obtain ⟨hE, hF⟩ := Framed.poll_next_none_state t.inner h1
    have hstep := Framed.poll_next_ended (t.inner.poll_next).2 hE hF
    show ((((t.inner.poll_next).2).poll_next).1,
        (⟨(((t.inner.poll_next).2).poll_next).2⟩ : NoiseTransport T U V))
      = (Poll.ready none, (⟨(t.inner.poll_next).2⟩ : NoiseTransport T U V))
    rw [hstep]
  · intro e h
    have h1 : (t.inner.poll_next).1 = Poll.ready (some (Except.error e)) := h
    have hF := Framed.poll_next_error_state t.inner e h1
    have hstep := Framed.poll_next_faulted (t.inner.poll_next).2 e hF
    show ((((t.inner.poll_next).2).poll_next).1,
        (⟨(((t.inner.poll_next).2).poll_next).2⟩ : NoiseTransport T U V))
      = (Poll.ready (some (Except.error e)),
          (⟨(t.inner.poll_next).2⟩ : NoiseTransport T U V))
    rw [hstep]

/-- Witness for C2 at a channel delivering a clean end of stream and at one
delivering an integrity fault. -/
theorem poll_next_terminal_witness :
    ((tEofNat.poll_next).1 = Poll.ready none ∧
      ((tEofNat.poll_next).2).poll_next
        = (Poll.ready none, (tEofNat.poll_next).2)) ∧
    ((tFaultNat.poll_next).1
        = Poll.ready (some (Except.error DecoderError.integrityFault)) ∧
      ((tFaultNat.poll_next).2).poll_next
        = (Poll.ready (some (Except.error DecoderError.integrityFault)),
            (tFaultNat.poll_next).2)) :=
  ⟨⟨rfl, (poll_next_terminal tEofNat).1 rfl⟩,
    ⟨rfl, (poll_next_terminal tFaultNat).2 DecoderError.integrityFault rfl⟩⟩

/-- Claim C3: every operation of the transport is exactly the corresponding
operation of the wrapped codec-over-secure-channel combinator applied to the
same state; the transport adds no buffering, queueing, or other behavior
beyond that delegation. -/
theorem transport_ops_delegate {T U V : Type} [Serde U] [Serde V]
    (f : Framed T U V) (u : U) :
    NoiseTransport.poll_ready ⟨f⟩ = ((f.poll_ready).1, ⟨(f.poll_ready).2⟩) ∧
    NoiseTransport.poll_flush ⟨f⟩ = ((f.poll_flush).1, ⟨(f.poll_flush).2⟩) ∧
    NoiseTransport.poll_close ⟨f⟩ = ((f.poll_close).1, ⟨(f.poll_close).2⟩) ∧
    NoiseTransport.start_send ⟨f⟩ u
      = ((f.start_send u).1, ⟨(f.start_send u).2⟩) ∧
    NoiseTransport.poll_next ⟨f⟩ = ((f.poll_next).1, ⟨(f.poll_next).2⟩) :=
  ⟨rfl, rfl, rfl, rfl, rfl⟩

/-- Claim C4: construction from an established secure channel is total (the
constructor's type admits no failure) and yields a transport wrapping the
given socket together with a freshly initialized codec and empty framing
state. -/
theorem new_binds_fresh_codec {T U V : Type} (socket : NoiseSocket T) :
    (NoiseTransport.new socket : NoiseTransport T U V).inner
      = Framed.new socket (AsymmetricMessageCodec.new U V) ∧
    (NoiseTransport.new socket : NoiseTransport T U V).codec
      = AsymmetricMessageCodec.new U V ∧
    (NoiseTransport.new socket : NoiseTransport T U V).get_ref = socket ∧
    (NoiseTransport.new socket : NoiseTransport T U V).inner.writeBuf = [] ∧
    (NoiseTransport.new socket : NoiseTransport T U V).inner.readBuf = [] ∧
    (NoiseTransport.new socket : NoiseTransport T U V).inner.ended = false ∧
    (NoiseTransport.new socket : NoiseTransport T U V).inner.inFault
      = none :=
  ⟨rfl, rfl, rfl, rfl, rfl, rfl, rfl⟩

/-- Claim C7: the codec and the socket are each reachable through three
accessor forms (immutable, mutable, pinned mutable, the last callable in the
source only through a pinned receiver), and every form reads or updates the
single underlying instance that the transport's own operations consult. -/
theorem accessors_coherent {T U V : Type} [Serde U]
    (t : NoiseTransport T U V) (c : AsymmetricMessageCodec U V)
    (s : NoiseSocket T) (u : U) :
    t.codec = t.inner.codec ∧
    t.codec_mut = t.inner.codec ∧
    t.codec_pin_mut = t.inner.codec ∧
    (t.codec_mut_write c).codec = c ∧
    (t.codec_pin_mut_write c).codec = c ∧
    (t.codec_mut_write c).inner.codec = c ∧
    t.get_ref = t.inner.socket ∧
    t.get_mut = t.inner.socket ∧
    t.get_pin_mut = t.inner.socket ∧
    (t.get_mut_write s).get_ref = s ∧
    (t.get_pin_mut_write s).get_ref = s ∧
    (t.get_mut_write s).inner.socket = s ∧
    ((t.codec_mut_write c).start_send u).1
      = (c.encode u).map (fun _ => ()) := by
  refine ⟨rfl, rfl, rfl, rfl, rfl, rfl, rfl, rfl, rfl, rfl, rfl, rfl, ?_⟩
  show ((({ t.inner with codec := c } : Framed T U V).start_send u).1, _).1 = _
  unfold Framed.start_send
  cases h : AsymmetricMessageCodec.encode c u with
  | ok bs => simp [h, Except.map]
  | error e => simp [h, Except.map]

/-- Claim C10: start_send consumes its message by value; on failure the
caller receives only the error (the result type carries no message), the
message is not enqueued, and the transport state is unchanged, while on
success the message's serialization is appended to the write buffer. -/
theorem start_send_consumes {T U V : Type} [Serde U]
    (t : NoiseTransport T U V) (u : U) :
    ((t.start_send u).1 = Except.ok () ∧
      (t.start_send u).2.inner.writeBuf
        = t.inner.writeBuf ++ frameBytes (ser u)) ∨
    ((t.start_send u).1 = Except.error EncoderError.serializationFault ∧
      (t.start_send u).2 = t) := by
  by_cases h : (ser u).length ≤ t.inner.codec.maxMessageSize
  · left
    constructor
    · show ((t.inner.start_send u).1, _).1 = _
      simp [Framed.start_send, AsymmetricMessageCodec.encode, h]
    · show (_, (⟨(t.inner.start_send u).2⟩ : NoiseTransport T U V)).2.inner.writeBuf = _
      simp [Framed.start_send, AsymmetricMessageCodec.encode, h]
  · right
    constructor
    · show ((t.inner.start_send u).1, _).1 = _
      simp [Framed.start_send, AsymmetricMessageCodec.encode, h]
    · show (_, (⟨(t.inner.start_send u).2⟩ : NoiseTransport T U V)).2 = t
      simp [Framed.start_send, AsymmetricMessageCodec.encode, h]

theorem tNotReady_buf_length : tNotReady.inner.writeBuf.length = 8192 := by
  have h2 : (frameBytes (ser (0 : Nat))).length = 2 := rfl
  show (((List.replicate 4096 (0 : Nat)).map
    fun m => frameBytes (ser m)).flatten).length = 8192
  rw [List.map_replicate, List.length_flatten, List.map_replicate, h2,
    List.sum_replicate]
  norm_num

theorem tNotReady_pending : (tNotReady.poll_ready).1 = Poll.pending := by
  have hlen := tNotReady_buf_length
  have hne : tNotReady.inner.writeBuf ≠ [] := by
    intro h
    rw [h] at hlen
    simp at hlen
  have hwf : tNotReady.inner.socket.writeFault = false := rfl
  have hwr : tNotReady.inner.socket.writeReady = false := rfl
  rw [NoiseTransport.poll_ready_def, Framed.poll_ready.eq_def, hlen,
    if_neg (by decide), Framed.poll_flush.eq_def, if_neg hne,
    if_neg (by rw [hwf]; simp), if_neg (by rw [hwr]; simp)]

/-- Counterexample to claim C6 as stated: at a transport whose ready-check
reports pending, a subsequent start_send is accepted with Ok — the contract
violation is not surfaced as an assertion or error. -/
theorem start_send_after_pending_accepted :
    (tNotReady.poll_ready).1 = Poll.pending ∧
    (tNotReady.start_send 5).1 = Except.ok () :=
  ⟨tNotReady_pending, rfl⟩

/-- Claim C6 (amended): a start_send issued while the ready-check reports
"not ready" is accepted without assertion or error (the message is simply
serialized into the write buffer), and it never corrupts the framing of
previously enqueued messages: the buffer remains the in-order concatenation
of complete frames, now with the new message's frame appended. -/
theorem start_send_preserves_framing {T U V : Type} [Serde U]
    (t : NoiseTransport T U V) (ms : List U) (u : U)
    (_hp : (t.poll_ready).1 = Poll.pending)
    (hbuf : t.inner.writeBuf = (ms.map fun m => frameBytes (ser m)).flatten)
    (hsz : (ser u).length ≤ t.inner.codec.maxMessageSize) :
    (t.start_send u).1 = Except.ok () ∧
    (t.start_send u).2.inner.writeBuf
      = ((ms ++ [u]).map fun m => frameBytes (ser m)).flatten := by
  constructor
  · show ((t.inner.start_send u).1, _).1 = _
    simp [Framed.start_send, AsymmetricMessageCodec.encode, hsz]
  · show (_, (⟨(t.inner.start_send u).2⟩ : NoiseTransport T U V)).2.inner.writeBuf = _
    simp [Framed.start_send, AsymmetricMessageCodec.encode, hsz, hbuf]

/-- Witness for the amended C6 at the concrete not-ready transport. -/
theorem start_send_preserves_framing_witness :
    (tNotReady.poll_ready).1 = Poll.pending ∧
    ((tNotReady.start_send 5).1 = Except.ok () ∧
      (tNotReady.start_send 5).2.inner.writeBuf
        = ((List.replicate 4096 (0 : Nat) ++ [5]).map
            fun m => frameBytes (ser m)).flatten) :=
  ⟨tNotReady_pending,
    start_send_preserves_framing tNotReady (List.replicate 4096 0) 5
      tNotReady_pending rfl (by decide)⟩

/-- Claim C8: every error of the four sink operations is a value of the
codec's encoder error type (the union of serialization faults and channel
I/O faults), reported synchronously at the operation that detected it, with
the state left unchanged — no implicit retry. -/
theorem sink_errors_synchronous {T U V : Type} [Serde U]
    (t : NoiseTransport T U V) (u : U)
    (hw : t.inner.socket.writeFault = true)
    (hb : t.inner.writeBuf ≠ [])
    (hfull : ¬ t.inner.writeBuf.length < backpressureBoundary)
    (hbig : ¬ (ser u).length ≤ t.inner.codec.maxMessageSize) :
    t.start_send u = (Except.error EncoderError.serializationFault, t) ∧
    t.poll_flush = (Poll.ready (Except.error EncoderError.ioFault), t) ∧
    t.poll_ready = (Poll.ready (Except.error EncoderError.ioFault), t) ∧
    t.poll_close = (Poll.ready (Except.error EncoderError.ioFault), t) ∧
    ∀ e : EncoderError,
      e = EncoderError.serializationFault ∨ e = EncoderError.ioFault := by
  have hflush : t.inner.poll_flush
      = (Poll.ready (Except.error EncoderError.ioFault), t.inner) := by
    simp [Framed.poll_flush, hb, hw]
  refine ⟨?_, ?_, ?_, ?_, fun e => by cases e <;> simp⟩
  · show ((t.inner.start_send u).1,
      (⟨(t.inner.start_send u).2⟩ : NoiseTransport T U V)) = _
    simp [Framed.start_send, AsymmetricMessageCodec.encode, hbig]
  · show ((t.inner.poll_flush).1,
      (⟨(t.inner.poll_flush).2⟩ : NoiseTransport T U V)) = _
    rw [hflush]
  · show ((t.inner.poll_ready).1,
      (⟨(t.inner.poll_ready).2⟩ : NoiseTransport T U V)) = _
    rw [Framed.poll_ready.eq_def, if_neg hfull, hflush]
  · show ((t.inner.poll_close).1,
      (⟨(t.inner.poll_close).2⟩ : NoiseTransport T U V)) = _
    rw [Framed.poll_close.eq_def, hflush]

/-- Witness for C8 at the broken-channel transport with a zero-size-limit
codec. -/
theorem sink_errors_synchronous_witness :
    tErr.start_send 5 = (Except.error EncoderError.serializationFault, tErr) ∧
    tErr.poll_flush = (Poll.ready (Except.error EncoderError.ioFault), tErr) ∧
    tErr.poll_ready = (Poll.ready (Except.error EncoderError.ioFault), tErr) ∧
    tErr.poll_close = (Poll.ready (Except.error EncoderError.ioFault), tErr) ∧
    ∀ e : EncoderError,
      e = EncoderError.serializationFault ∨ e = EncoderError.ioFault := by
  have hlen : tErr.inner.writeBuf.length = 8192 := by
    show (List.replicate 8192 (1 : Nat)).length = 8192
    rw [List.length_replicate]
  have hb : tErr.inner.writeBuf ≠ [] := by
    intro h
    rw [h] at hlen
    simp at hlen
  exact sink_errors_synchronous tErr 5 rfl hb (by rw [hlen]; decide) (by decide)

theorem ready_then_send_step {T U V : Type} [Serde U]
    (t : NoiseTransport T U V) (u : U)
    (h1 : t.inner.socket.writeReady = true)
    (h2 : t.inner.socket.writeFault = false)
    (hsz : (ser u).length ≤ t.inner.codec.maxMessageSize) :
    ∃ t1 t2, t.poll_ready = (Poll.ready (Except.ok ()), t1) ∧
      t1.start_send u = (Except.ok (), t2) ∧
      t2.inner.socket.sent ++ t2.inner.writeBuf
        = t.inner.socket.sent ++ t.inner.writeBuf ++ frameBytes (ser u) ∧
      t2.inner.socket.writeReady = true ∧
      t2.inner.socket.writeFault = false ∧
      t2.inner.codec = t.inner.codec := by
  by_cases hlt : t.inner.writeBuf.length < backpressureBoundary
  · refine ⟨t, ⟨{ t.inner with
        writeBuf := t.inner.writeBuf ++ frameBytes (ser u) }⟩, ?_, ?_, ?_,
      h1, h2, rfl⟩
    · rw [NoiseTransport.poll_ready_def, Framed.poll_ready.eq_def, if_pos hlt]
    · rw [NoiseTransport.start_send_def, Framed.start_send.eq_def]
      rw [AsymmetricMessageCodec.encode.eq_def, if_pos hsz]
    · simp
  · have hb : t.inner.writeBuf ≠ [] := by
      intro hnil
      apply hlt
      rw [hnil]
      simp [backpressureBoundary]
    refine ⟨⟨{ t.inner with
        socket := { t.inner.socket with
          sent := t.inner.socket.sent ++ t.inner.writeBuf },
        writeBuf := [] }⟩,
      ⟨{ t.inner with
        socket := { t.inner.socket with
          sent := t.inner.socket.sent ++ t.inner.writeBuf },
        writeBuf := [] ++ frameBytes (ser u) }⟩, ?_, ?_, ?_, h1, h2, rfl⟩
    · rw [NoiseTransport.poll_ready_def, Framed.poll_ready.eq_def,
        if_neg hlt, Framed.poll_flush.eq_def, if_neg hb, if_neg (by rw [h2]; simp),
        if_pos h1]
    · rw [NoiseTransport.start_send_def, Framed.start_send.eq_def]
      rw [AsymmetricMessageCodec.encode.eq_def]
      simp only [if_pos hsz]
    · simp

theorem sendAll_ordered {T U V : Type} [Serde U] (msgs : List U) :
    ∀ t : NoiseTransport T U V,
    t.inner.socket.writeReady = true →
    t.inner.socket.writeFault = false →
    (∀ u ∈ msgs, (ser u).length ≤ t.inner.codec.maxMessageSize) →
    ∃ t2, sendAll t msgs = some t2 ∧
      t2.inner.socket.sent ++ t2.inner.writeBuf
        = t.inner.socket.sent ++ t.inner.writeBuf
            ++ (msgs.map fun m => frameBytes (ser m)).flatten ∧
      t2.inner.socket.writeReady = true ∧
      t2.inner.socket.writeFault = false ∧
      t2.inner.codec = t.inner.codec := by
  induction msgs with
  | nil =>
    intro t h1 h2 _
    exact ⟨t, rfl, by simp, h1, h2, rfl⟩
  | cons u us ih =>
    intro t h1 h2 hsz
    obtain ⟨t1, t2, hpr, hss, heq, hr2, hf2, hc2⟩ :=
      ready_then_send_step t u h1 h2 (hsz u (by simp))
    obtain ⟨t3, hs3, heq3, hr3, hf3, hc3⟩ := ih t2 hr2 hf2
      (fun u2 hm => by rw [hc2]; exact hsz u2 (by simp [hm]))
    refine ⟨t3, ?_, ?_, hr3, hf3, by rw [hc3, hc2]⟩
    · rw [sendAll, hpr]
      simp only [hss, hs3]
    · rw [heq3, heq]
      simp [List.append_assoc]

theorem poll_flush_drains {T U V : Type} (t : NoiseTransport T U V)
    (h1 : t.inner.socket.writeReady = true)
    (h2 : t.inner.socket.writeFault = false) :
    ∃ t3, t.poll_flush = (Poll.ready (Except.ok ()), t3) ∧
      t3.inner.socket.sent = t.inner.socket.sent ++ t.inner.writeBuf ∧
      t3.inner.writeBuf = [] := by
  by_cases hb : t.inner.writeBuf = []
  · refine ⟨t, ?_, by rw [hb]; simp, hb⟩
    rw [NoiseTransport.poll_flush_def, Framed.poll_flush.eq_def, if_pos hb]
  · refine ⟨⟨{ t.inner with
      socket := { t.inner.socket with
        sent := t.inner.socket.sent ++ t.inner.writeBuf },
      writeBuf := [] }⟩, ?_, rfl, rfl⟩
    rw [NoiseTransport.poll_flush_def, Framed.poll_flush.eq_def, if_neg hb,
      if_neg (by rw [h2]; simp), if_pos h1]

theorem pollNextLoopAux_decode_ok {U V : Type} [Serde V]
    (c : AsymmetricMessageCodec U V) (fuel : Nat) (buf : List Nat)
    (inc : List ReadChunk) (v : V) (rest : List Nat)
    (hd : c.decode buf = some (Except.ok (v, rest))) :
    pollNextLoopAux c (fuel + 1) buf inc
      = (Poll.ready (some (Except.ok v)), rest, inc) := by
  conv => lhs; whnf
  rw [hd]

theorem Framed.poll_next_frame {T U V : Type} [Serde V] (f : Framed T U V)
    (v : V) (rest : List Nat)
    (hrt : deser (ser v) = some v)
    (hbuf : f.readBuf = frameBytes (ser v) ++ rest)
    (hE : f.ended = false) (hF : f.inFault = none) :
    f.poll_next
      = (Poll.ready (some (Except.ok v)), { f with readBuf := rest }) := by
  have hd : f.codec.decode f.readBuf = some (Except.ok (v, rest)) := by
    rw [hbuf]
    exact f.codec.decode_frame v rest hrt
  have hL : pollNextLoop f.codec f.readBuf f.socket.incoming
      = (Poll.ready (some (Except.ok v)), rest, f.socket.incoming) :=
    pollNextLoopAux_decode_ok f.codec f.socket.incoming.length f.readBuf
      f.socket.incoming v rest hd
  simp [Framed.poll_next, hF, hE, hL]

theorem Framed.poll_next_chunk {T U V : Type} [Serde V] (f : Framed T U V)
    (v : V) (rest : List Nat)
    (hrt : deser (ser v) = some v)
    (hbuf : f.readBuf = [])
    (hinc : f.socket.incoming = [ReadChunk.bytes (frameBytes (ser v) ++ rest)])
    (hE : f.ended = false) (hF : f.inFault = none) :
    f.poll_next = (Poll.ready (some (Except.ok v)),
      { f with readBuf := rest,
               socket := { f.socket with incoming := [] } }) := by
  have hd : f.codec.decode (frameBytes (ser v) ++ rest)
      = some (Except.ok (v, rest)) :=
    f.codec.decode_frame v rest hrt
  have step1 : pollNextLoop f.codec ([] : List Nat)
      [ReadChunk.bytes (frameBytes (ser v) ++ rest)]
      = pollNextLoopAux f.codec 1 (frameBytes (ser v) ++ rest) [] := rfl
  have step2 : pollNextLoopAux f.codec 1 (frameBytes (ser v) ++ rest)
      ([] : List ReadChunk)
      = (Poll.ready (some (Except.ok v)), rest, ([] : List ReadChunk)) :=
    pollNextLoopAux_decode_ok f.codec 0 (frameBytes (ser v) ++ rest) [] v
      rest hd
  have hL : pollNextLoop f.codec f.readBuf f.socket.incoming
      = (Poll.ready (some (Except.ok v)), rest, ([] : List ReadChunk)) := by
    rw [hbuf, hinc, step1, step2]
  simp [Framed.poll_next, hF, hE, hL]

theorem pollMany_frames {T U V : Type} [Serde V] (vs : List V) :
    ∀ s : NoiseTransport T U V,
    (∀ v : V, deser (ser v) = some v) →
    s.inner.readBuf = (vs.map fun v => frameBytes (ser v)).flatten →
    s.inner.ended = false → s.inner.inFault = none →
    (pollMany vs.length s).1
      = vs.map fun v => Poll.ready (some (Except.ok v)) := by
  induction vs with
  | nil => intro s _ _ _ _; rfl
  | cons v vs ih =>
    intro s hrt hbuf hE hF
    have hb : s.inner.readBuf
        = frameBytes (ser v) ++ (vs.map fun v => frameBytes (ser v)).flatten := by
      rw [hbuf]
      simp
    have hstep := Framed.poll_next_frame s.inner v _ (hrt v) hb hE hF
    have hstep' : s.poll_next = (Poll.ready (some (Except.ok v)),
        (⟨{ s.inner with
          readBuf := (vs.map fun v => frameBytes (ser v)).flatten }⟩ :
          NoiseTransport T U V)) := by
      rw [NoiseTransport.poll_next_def, hstep]
    show (pollMany (vs.length + 1) s).1 = _
    rw [pollMany, hstep']
    have := ih (⟨{ s.inner with
      readBuf := (vs.map fun v => frameBytes (ser v)).flatten }⟩ :
      NoiseTransport T U V) hrt rfl hE hF
    simp only [List.map_cons]
    rw [← this]

/-- Claim C1: outbound messages, each accepted by start_send after a
successful poll_ready and then flushed, reach the channel as their
serializations in exactly the order enqueued, with no reordering and no
duplication; symmetrically the stream yields inbound messages in exactly
the order the channel delivered their bytes. -/
theorem transport_ordering {T U V : Type} [Serde U] [Serde V]
    (t : NoiseTransport T U V) (msgs : List U)
    (s : NoiseTransport T U V) (vs : List V)
    (h1 : t.inner.socket.writeReady = true)
    (h2 : t.inner.socket.writeFault = false)
    (h0 : t.inner.writeBuf = [])
    (hsz : ∀ u ∈ msgs, (ser u).length ≤ t.inner.codec.maxMessageSize)
    (hrt : ∀ v : V, deser (ser v) = some v)
    (hs0 : s.inner.readBuf = [])
    (hsi : s.inner.socket.incoming
      = [ReadChunk.bytes ((vs.map fun v => frameBytes (ser v)).flatten)])
    (hsE : s.inner.ended = false) (hsF : s.inner.inFault = none) :
    (∃ t2 t3, sendAll t msgs = some t2 ∧
      t2.poll_flush = (Poll.ready (Except.ok ()), t3) ∧
      t3.inner.socket.sent = t.inner.socket.sent
        ++ (msgs.map fun m => frameBytes (ser m)).flatten) ∧
    (pollMany vs.length s).1
      = vs.map fun v => Poll.ready (some (Except.ok v)) := by
  constructor
  · obtain ⟨t2, hs2, heq2, hr2, hf2, _⟩ := sendAll_ordered msgs t h1 h2 hsz
    obtain ⟨t3, hfl, hsent, _⟩ := poll_flush_drains t2 hr2 hf2
    refine ⟨t2, t3, hs2, hfl, ?_⟩
    rw [hsent, heq2, h0]
    simp
  · cases vs with
    | nil => rfl
    | cons v vs =>
      have hstep := Framed.poll_next_chunk s.inner v
        ((vs.map fun v => frameBytes (ser v)).flatten) (hrt v) hs0
        (by rw [hsi]; simp) hsE hsF
      have hstep' : s.poll_next = (Poll.ready (some (Except.ok v)),
          (⟨{ s.inner with
            readBuf := (vs.map fun v => frameBytes (ser v)).flatten,
            socket := { s.inner.socket with incoming := [] } }⟩ :
            NoiseTransport T U V)) := by
        rw [NoiseTransport.poll_next_def, hstep]
      show (pollMany (vs.length + 1) s).1 = _
      rw [pollMany, hstep']
      have := pollMany_frames vs (⟨{ s.inner with
        readBuf := (vs.map fun v => frameBytes (ser v)).flatten,
        socket := { s.inner.socket with incoming := [] } }⟩ :
        NoiseTransport T U V) hrt rfl hsE hsF
      simp only [List.map_cons]
      rw [← this]

/-- Witness for C1: two pings sent in order land on the channel as their two
frames in order, and two pongs delivered in one chunk are yielded in
order. -/
theorem transport_ordering_witness :
    (∃ t2 t3, sendAll tSendPing [(⟨1⟩ : Ping), ⟨2⟩] = some t2 ∧
      t2.poll_flush = (Poll.ready (Except.ok ()), t3) ∧
      t3.inner.socket.sent = tSendPing.inner.socket.sent
        ++ (([(⟨1⟩ : Ping), ⟨2⟩].map fun m => frameBytes (ser m)).flatten)) ∧
    (pollMany ([(⟨7, [9, 9]⟩ : Pong), ⟨8, []⟩].length) sRecvPong).1
      = [(⟨7, [9, 9]⟩ : Pong), ⟨8, []⟩].map
          fun v => Poll.ready (some (Except.ok v)) :=
  transport_ordering tSendPing [⟨1⟩, ⟨2⟩] sRecvPong [⟨7, [9, 9]⟩, ⟨8, []⟩]
    rfl rfl rfl (by decide) (fun v => by cases v; rfl) rfl rfl rfl rfl

/-- Claim C5: the outbound type U and inbound type V are independent type
parameters; the sink consumes values of U (appending their frames to the
write buffer) while the stream produces values of V, with no structural
relation between the two types. -/
theorem transport_asymmetric {T U V : Type} [Serde U] [Serde V]
    (t : NoiseTransport T U V) (u : U) (v : V)
    (hsz : (ser u).length ≤ t.inner.codec.maxMessageSize)
    (hrt : deser (ser v) = some v)
    (hbuf : t.inner.readBuf = frameBytes (ser v))
    (hE : t.inner.ended = false) (hF : t.inner.inFault = none) :
    (t.start_send u).1 = Except.ok () ∧
    (t.start_send u).2.inner.writeBuf
      = t.inner.writeBuf ++ frameBytes (ser u) ∧
    (t.poll_next).1 = Poll.ready (some (Except.ok v)) := by
  have hb : t.inner.readBuf = frameBytes (ser v) ++ [] := by
    rw [hbuf]
    simp
  have hstep := Framed.poll_next_frame t.inner v [] hrt hb hE hF
  refine ⟨?_, ?_, ?_⟩
  · rw [NoiseTransport.start_send_def, Framed.start_send.eq_def,
      AsymmetricMessageCodec.encode.eq_def]
    simp only [if_pos hsz]
  · rw [NoiseTransport.start_send_def, Framed.start_send.eq_def,
      AsymmetricMessageCodec.encode.eq_def]
    simp only [if_pos hsz]
  · rw [NoiseTransport.poll_next_def, hstep]

/-- Witness for C5: a transport fixed to Ping outbound and Pong inbound
sends a ping and receives a pong. -/
theorem transport_asymmetric_witness :
    (tAsym.start_send (⟨3⟩ : Ping)).1 = Except.ok () ∧
    (tAsym.start_send (⟨3⟩ : Ping)).2.inner.writeBuf
      = tAsym.inner.writeBuf ++ frameBytes (ser (⟨3⟩ : Ping)) ∧
    (tAsym.poll_next).1
      = Poll.ready (some (Except.ok (⟨7, [1, 2]⟩ : Pong))) :=
  transport_asymmetric tAsym ⟨3⟩ ⟨7, [1, 2]⟩ (by decide) rfl rfl rfl rfl

end Dissonance
